import Mathlib

/-!
Verification of the key-material translation layer (raw codec, JWK inference
engine, import/export facades, X25519 PKCS8 extractor).

Bytes are modelled as `Nat` values (with `< 256` side conditions where byte
arithmetic matters).  Strings produced by the text codecs are Lean `String`s
built from explicit character lists.  The external `@std/encoding` collaborators
(`encodeBase64Url`, `decodeBase64Url`, `encodeHex`, `decodeHex`) are modelled
to their documented contract: unpadded RFC 4648 base64url and lowercase hex.
Fallible operations return `Except`/`Option`; each thrown `Error` of the source
is one constructor of an error inductive, named after its message.
-/

namespace Crypto

/-! ### Model of the base64url text codec (external collaborator) -/

/-- One base64url alphabet character for a sextet value (A-Z, a-z, 0-9, -, _). -/
def b64Char (n : Nat) : Char :=
  if n < 26 then Char.ofNat (65 + n)
  else if n < 52 then Char.ofNat (71 + n)
  else if n < 62 then Char.ofNat (n - 4)
  else if n = 62 then Char.ofNat 45
  else Char.ofNat 95

/-- Sextet value of a base64url alphabet character, `none` outside the alphabet. -/
def b64Val (c : Char) : Option Nat :=
  if 65 ≤ c.toNat ∧ c.toNat ≤ 90 then some (c.toNat - 65)
  else if 97 ≤ c.toNat ∧ c.toNat ≤ 122 then some (c.toNat - 71)
  else if 48 ≤ c.toNat ∧ c.toNat ≤ 57 then some (c.toNat + 4)
  else if c.toNat = 45 then some 62
  else if c.toNat = 95 then some 63
  else none

/-- Pack bytes into base64 sextets, three bytes to four sextets, with the
RFC 4648 handling of a one- or two-byte tail (no padding). -/
def bytesToSextets : List Nat → List Nat
  | [] => []
  | [b0] => [b0 / 4, b0 % 4 * 16]
  | [b0, b1] => [b0 / 4, b0 % 4 * 16 + b1 / 16, b1 % 16 * 4]
  | b0 :: b1 :: b2 :: rest =>
      b0 / 4 :: (b0 % 4 * 16 + b1 / 16) :: (b1 % 16 * 4 + b2 / 64) :: b2 % 64 ::
        bytesToSextets rest

/-- Unpack base64 sextets back into bytes; a single leftover sextet is invalid. -/
def sextetsToBytes : List Nat → Option (List Nat)
  | [] => some []
  | [_] => none
  | [s0, s1] => some [s0 * 4 + s1 / 16]
  | [s0, s1, s2] => some [s0 * 4 + s1 / 16, s1 % 16 * 16 + s2 / 4]
  | s0 :: s1 :: s2 :: s3 :: rest => do
      pure ((s0 * 4 + s1 / 16) :: (s1 % 16 * 16 + s2 / 4) :: (s2 % 4 * 64 + s3) ::
        (← sextetsToBytes rest))

/-- Model of `encodeBase64Url` from `@std/encoding/base64url`. -/
def encodeBase64Url (l : List Nat) : String :=
  String.mk ((bytesToSextets l).map b64Char)

/-- Model of `decodeBase64Url` from `@std/encoding/base64url`
(`none` models the thrown decoding error). -/
def decodeBase64Url (s : String) : Option (List Nat) := do
  sextetsToBytes (← s.data.mapM b64Val)

theorem b64Val_b64Char : ∀ n < 64, b64Val (b64Char n) = some n := by decide

theorem sextetsToBytes_bytesToSextets :
    ∀ l : List Nat, (∀ b ∈ l, b < 256) →
      sextetsToBytes (bytesToSextets l) = some l
  | [], _ => rfl
  | [b0], h => by
      have hb0 : b0 < 256 := h b0 (by simp)
      simp only [bytesToSextets, sextetsToBytes, Option.some.injEq, List.cons.injEq,
        and_true]
      omega
  | [b0, b1], h => by
      have hb0 : b0 < 256 := h b0 (by simp)
      have hb1 : b1 < 256 := h b1 (by simp)
      simp only [bytesToSextets, sextetsToBytes, Option.some.injEq, List.cons.injEq,
        and_true]
      omega
  | b0 :: b1 :: b2 :: c :: rest, h => by
      have hb0 : b0 < 256 := h b0 (by simp)
      have hb1 : b1 < 256 := h b1 (by simp)
      have hb2 : b2 < 256 := h b2 (by simp)
      have ih := sextetsToBytes_bytesToSextets (c :: rest)
        (fun b hb => h b (by simp_all))
      simp only [bytesToSextets, sextetsToBytes, Option.bind_eq_bind,
        Option.pure_def, Option.bind_eq_some, Option.some.injEq] at ih ⊢
      exact ⟨c :: rest, ih, by simp only [List.cons.injEq, and_true]; omega⟩
  | [b0, b1, b2], h => by
      have hb0 : b0 < 256 := h b0 (by simp)
      have hb1 : b1 < 256 := h b1 (by simp)
      have hb2 : b2 < 256 := h b2 (by simp)
      simp only [bytesToSextets, sextetsToBytes, Option.bind_eq_bind,
        Option.pure_def, Option.bind_eq_some, Option.some.injEq]
      exact ⟨[], rfl, by simp only [List.cons.injEq, and_true]; omega⟩

theorem bytesToSextets_lt :
    ∀ l : List Nat, (∀ b ∈ l, b < 256) → ∀ s ∈ bytesToSextets l, s < 64
  | [], _ => by simp [bytesToSextets]
  | [b0], h => by
      have hb0 : b0 < 256 := h b0 (by simp)
      simp only [bytesToSextets, List.mem_cons, List.not_mem_nil, or_false]
      rintro s (rfl | rfl) <;> omega
  | [b0, b1], h => by
      have hb0 : b0 < 256 := h b0 (by simp)
      have hb1 : b1 < 256 := h b1 (by simp)
      simp only [bytesToSextets, List.mem_cons, List.not_mem_nil, or_false]
      rintro s (rfl | rfl | rfl) <;> omega
  | b0 :: b1 :: b2 :: c :: rest, h => by
      have hb0 : b0 < 256 := h b0 (by simp)
      have hb1 : b1 < 256 := h b1 (by simp)
      have hb2 : b2 < 256 := h b2 (by simp)
      have ih := bytesToSextets_lt (c :: rest) (fun b hb => h b (by simp_all))
      simp only [bytesToSextets, List.mem_cons] at ih ⊢
      rintro s (rfl | rfl | rfl | rfl | hs)
      · omega
      · omega
      · omega
      · omega
      · exact ih s hs
  | [b0, b1, b2], h => by
      have hb0 : b0 < 256 := h b0 (by simp)
      have hb1 : b1 < 256 := h b1 (by simp)
      have hb2 : b2 < 256 := h b2 (by simp)
      simp only [bytesToSextets, List.mem_cons, List.not_mem_nil, or_false]
      rintro s (rfl | rfl | rfl | rfl) <;> omega

theorem mapM_b64Val_map_b64Char :
    ∀ sx : List Nat, (∀ s ∈ sx, s < 64) →
      (sx.map b64Char).mapM b64Val = some sx := by
  intro sx
  induction sx with
  | nil => intro _; rfl
  | cons s rest ih =>
      intro h
      have hs : s < 64 := h s (by simp)
      simp only [List.map_cons, List.mapM_cons, b64Val_b64Char s hs,
        ih (fun t ht => h t (by simp_all)), Option.pure_def, Option.bind_eq_bind,
        Option.some_bind]

/-- The base64url codec round-trips on byte lists. -/
theorem decodeBase64Url_encodeBase64Url (l : List Nat) (h : ∀ b ∈ l, b < 256) :
    decodeBase64Url (encodeBase64Url l) = some l := by
  unfold decodeBase64Url encodeBase64Url
  simp only [Option.bind_eq_bind]
  rw [mapM_b64Val_map_b64Char _ (bytesToSextets_lt l h)]
  simpa using sextetsToBytes_bytesToSextets l h

/-! ### Model of the hex text codec (external collaborator) -/

/-- Lowercase hex digit for a value below 16. -/
def hexDigit (n : Nat) : Char :=
  if n < 10 then Char.ofNat (48 + n) else Char.ofNat (87 + n)

/-- Value of a hex digit character (`0-9`, `a-f`, `A-F`), else `none`. -/
def hexCharVal (c : Char) : Option Nat :=
  if 48 ≤ c.toNat ∧ c.toNat ≤ 57 then some (c.toNat - 48)
  else if 97 ≤ c.toNat ∧ c.toNat ≤ 102 then some (c.toNat - 87)
  else if 65 ≤ c.toNat ∧ c.toNat ≤ 70 then some (c.toNat - 55)
  else none

/-- Model of `encodeHex` from `@std/encoding/hex`. -/
def encodeHex (l : List Nat) : String :=
  String.mk (l.flatMap fun b => [hexDigit (b / 16), hexDigit (b % 16)])

/-- Decode a character list as hex byte pairs. -/
def decodeHexChars : List Char → Option (List Nat)
  | [] => some []
  | [_] => none
  | c1 :: c2 :: rest => do
      pure (((← hexCharVal c1) * 16 + (← hexCharVal c2)) :: (← decodeHexChars rest))

/-- Model of `decodeHex` from `@std/encoding/hex`
(`none` models the thrown decoding error). -/
def decodeHex (s : String) : Option (List Nat) := decodeHexChars s.data

theorem hexCharVal_hexDigit : ∀ n < 16, hexCharVal (hexDigit n) = some n := by
  decide

theorem decodeHexChars_encodeHex :
    ∀ l : List Nat, (∀ b ∈ l, b < 256) →
      decodeHexChars (l.flatMap fun b => [hexDigit (b / 16), hexDigit (b % 16)])
        = some l := by
  intro l
  induction l with
  | nil => intro _; rfl
  | cons b rest ih =>
      intro h
      have hb : b < 256 := h b (by simp)
      simp only [List.flatMap_cons, List.cons_append, List.nil_append]
      show decodeHexChars (hexDigit (b / 16) :: hexDigit (b % 16) :: _) = _
      rw [decodeHexChars]
      simp only [hexCharVal_hexDigit (b / 16) (by omega),
        hexCharVal_hexDigit (b % 16) (by omega),
        ih (fun t ht => h t (by simp_all)), Option.pure_def, Option.bind_eq_bind,
        Option.some_bind, Option.some.injEq, List.cons.injEq, and_true]
      omega

/-- The hex codec round-trips on byte lists. -/
theorem decodeHex_encodeHex (l : List Nat) (h : ∀ b ∈ l, b < 256) :
    decodeHex (encodeHex l) = some l := by
  unfold decodeHex encodeHex
  exact decodeHexChars_encodeHex l h

end Crypto

namespace Crypto

/-! ### Algorithm tags and the raw codec (`src/utils.ts`, `src/importKey.ts`) -/

/-- The `KeyAlg` union type of `src/utils.ts`. -/
inductive KeyAlg where
  | Ed25519
  | X25519
  | P256
  | ES256
  | P384
  | ES384
  | P521
  | ES512
deriving DecidableEq

/-- Errors thrown by the key import path; one constructor per thrown message. -/
inductive KeyError where
  /-- Source `publicKey length must be N bytes` -/
  | invalidPublicKeyLen (expected : Nat)
  /-- Source `privateKey length must be N bytes` -/
  | invalidPrivateKeyLen (expected : Nat)
  /-- Source `key algorithm not supported ALG` -/
  | algNotSupported (alg : KeyAlg)
  /-- decode failure of a hex input string (thrown by `decodeHex`) -/
  | malformedHex
deriving DecidableEq

/-- Whether a `KeyError` is one of the two length-check errors. -/
def KeyError.isInvalidKeyLength : KeyError → Bool
  | .invalidPublicKeyLen _ => true
  | .invalidPrivateKeyLen _ => true
  | _ => false

/-- The structured object built by `_importXY_D`: base64url `x`, optional `y`
(EC only) and optional `d` (private keys only). -/
structure XYD where
  x : String
  y : Option String
  d : Option String
deriving DecidableEq

/-- Mirrors `privateKey && privateKey.byteLength !== n` of the source. -/
def privLenBad (privateKey : Option (List Nat)) (n : Nat) : Bool :=
  match privateKey with
  | some p => p.length ≠ n
  | none => false

/-- The raw-codec structured-object builder `_importXY_D` of `src/importKey.ts`:
splits an EC public buffer at the curve midpoint into `x`/`y`, base64url-encodes
the parts and the optional private scalar `d`, after checking the fixed
byte lengths. -/
def _importXY_D (alg : KeyAlg) (publicKey : List Nat)
    (privateKey : Option (List Nat)) : Except KeyError XYD :=
  match alg with
  | .Ed25519 =>
      if publicKey.length ≠ 32 then .error (.invalidPublicKeyLen 32)
      else if privLenBad privateKey 32 then .error (.invalidPrivateKeyLen 32)
      else .ok ⟨encodeBase64Url publicKey, none, privateKey.map encodeBase64Url⟩
  | .P256 | .ES256 =>
      if publicKey.length ≠ 64 then .error (.invalidPublicKeyLen 64)
      else if privLenBad privateKey 32 then .error (.invalidPrivateKeyLen 32)
      else .ok ⟨encodeBase64Url (publicKey.take 32),
        some (encodeBase64Url (publicKey.drop 32)), privateKey.map encodeBase64Url⟩
  | .P384 | .ES384 =>
      if publicKey.length ≠ 96 then .error (.invalidPublicKeyLen 96)
      else if privLenBad privateKey 48 then .error (.invalidPrivateKeyLen 48)
      else .ok ⟨encodeBase64Url (publicKey.take 48),
        some (encodeBase64Url (publicKey.drop 48)), privateKey.map encodeBase64Url⟩
  | .P521 | .ES512 =>
      if publicKey.length ≠ 132 then .error (.invalidPublicKeyLen 132)
      else if privLenBad privateKey 66 then .error (.invalidPrivateKeyLen 66)
      else .ok ⟨encodeBase64Url (publicKey.take 66),
        some (encodeBase64Url (publicKey.drop 66)), privateKey.map encodeBase64Url⟩
  | .X25519 => .error (.algNotSupported .X25519)

/-- Fixed public-coordinate byte length per tag (byte-length table of the spec). -/
def pubLen : KeyAlg → Nat
  | .Ed25519 => 32
  | .X25519 => 32
  | .P256 | .ES256 => 64
  | .P384 | .ES384 => 96
  | .P521 | .ES512 => 132

/-- Fixed private-scalar byte length per tag (byte-length table of the spec). -/
def privLen : KeyAlg → Nat
  | .Ed25519 => 32
  | .X25519 => 32
  | .P256 | .ES256 => 32
  | .P384 | .ES384 => 48
  | .P521 | .ES512 => 66

/-- The public-part decoding performed by `exportKey` in `src/exportKey.ts`:
with `y` present (EC) the raw public bytes are `decode x ++ decode y`, in that
order; without `y` (OKP) they are `decode x`. -/
def jwkRawPublic (j : XYD) : Option (List Nat) :=
  match j.y with
  | some y => do pure ((← decodeBase64Url j.x) ++ (← decodeBase64Url y))
  | none => decodeBase64Url j.x

/-- The private-part decoding performed by `exportKey`: decode `d`. -/
def jwkRawPrivate (j : XYD) : Option (List Nat) :=
  j.d.bind decodeBase64Url

end Crypto

namespace Crypto

theorem jwkRawPublic_mk_ec (a b : List Nat) (d : Option String)
    (ha : ∀ x ∈ a, x < 256) (hb : ∀ x ∈ b, x < 256) :
    jwkRawPublic ⟨encodeBase64Url a, some (encodeBase64Url b), d⟩ = some (a ++ b) := by
  simp [jwkRawPublic, decodeBase64Url_encodeBase64Url a ha,
    decodeBase64Url_encodeBase64Url b hb]

theorem jwkRawPublic_mk_okp (a : List Nat) (d : Option String)
    (ha : ∀ x ∈ a, x < 256) :
    jwkRawPublic ⟨encodeBase64Url a, none, d⟩ = some a := by
  simp [jwkRawPublic, decodeBase64Url_encodeBase64Url a ha]

theorem jwkRawPrivate_mk (x : String) (y : Option String) (p : List Nat)
    (hp : ∀ b ∈ p, b < 256) :
    jwkRawPrivate ⟨x, y, some (encodeBase64Url p)⟩ = some p := by
  simp [jwkRawPrivate, decodeBase64Url_encodeBase64Url p hp]

/-- Claim C1. Raw-codec round-trip: for every algorithm tag the raw codec supports
(every tag but X25519, which `_importXY_D` rejects as unsupported) and every
public buffer and private scalar of the tag's fixed table lengths, building the
structured key object via `_importXY_D` (splitting the EC public bytes at the
curve midpoint into `x`/`y`, base64url-encoding `x`, `y` and `d`) and then
decoding it back the way `exportKey` does (base64url-decoding and concatenating
`x ‖ y` for the public part, decoding `d` for the private part) reproduces the
original public and private bytes exactly. -/
theorem claim_C1_raw_roundtrip (alg : KeyAlg) (h : alg ≠ .X25519)
    (pub priv : List Nat)
    (hpl : pub.length = pubLen alg) (hvl : priv.length = privLen alg)
    (hpb : ∀ b ∈ pub, b < 256) (hvb : ∀ b ∈ priv, b < 256) :
    ∃ j, _importXY_D alg pub (some priv) = .ok j ∧
      jwkRawPublic j = some pub ∧ jwkRawPrivate j = some priv := by
  have ec : ∀ n : Nat, jwkRawPublic ⟨encodeBase64Url (pub.take n),
      some (encodeBase64Url (pub.drop n)), some (encodeBase64Url priv)⟩ = some pub := by
    intro n
    rw [jwkRawPublic_mk_ec _ _ _ (fun x hx => hpb x (List.take_subset n pub hx))
      (fun x hx => hpb x (List.drop_subset n pub hx)), List.take_append_drop]
  cases alg with
  | X25519 => exact absurd rfl h
  | Ed25519 =>
      simp only [pubLen, privLen] at hpl hvl
      refine ⟨⟨encodeBase64Url pub, none, some (encodeBase64Url priv)⟩, ?_, ?_, ?_⟩
      · simp [_importXY_D, hpl, privLenBad, hvl]
      · exact jwkRawPublic_mk_okp _ _ hpb
      · exact jwkRawPrivate_mk _ _ _ hvb
  | P256 =>
      simp only [pubLen, privLen] at hpl hvl
      exact ⟨_, by simp [_importXY_D, hpl, privLenBad, hvl], ec 32,
        jwkRawPrivate_mk _ _ _ hvb⟩
  | ES256 =>
      simp only [pubLen, privLen] at hpl hvl
      exact ⟨_, by simp [_importXY_D, hpl, privLenBad, hvl], ec 32,
        jwkRawPrivate_mk _ _ _ hvb⟩
  | P384 =>
      simp only [pubLen, privLen] at hpl hvl
      exact ⟨_, by simp [_importXY_D, hpl, privLenBad, hvl], ec 48,
        jwkRawPrivate_mk _ _ _ hvb⟩
  | ES384 =>
      simp only [pubLen, privLen] at hpl hvl
      exact ⟨_, by simp [_importXY_D, hpl, privLenBad, hvl], ec 48,
        jwkRawPrivate_mk _ _ _ hvb⟩
  | P521 =>
      simp only [pubLen, privLen] at hpl hvl
      exact ⟨_, by simp [_importXY_D, hpl, privLenBad, hvl], ec 66,
        jwkRawPrivate_mk _ _ _ hvb⟩
  | ES512 =>
      simp only [pubLen, privLen] at hpl hvl
      exact ⟨_, by simp [_importXY_D, hpl, privLenBad, hvl], ec 66,
        jwkRawPrivate_mk _ _ _ hvb⟩

theorem claim_C1_witness :
    ∃ j, _importXY_D .Ed25519 (List.replicate 32 0) (some (List.replicate 32 7)) = .ok j ∧
      jwkRawPublic j = some (List.replicate 32 0) ∧
      jwkRawPrivate j = some (List.replicate 32 7) :=
  claim_C1_raw_roundtrip .Ed25519 (by decide) (List.replicate 32 0)
    (List.replicate 32 7) (by decide) (by decide) (by decide) (by decide)

end Crypto

namespace Crypto

theorem importBranch_spec (P S : Nat) (pub : List Nat) (priv : Option (List Nat))
    (mk : XYD) :
    ((if pub.length ≠ P then (Except.error (KeyError.invalidPublicKeyLen P) : Except KeyError XYD)
      else if privLenBad priv S then .error (.invalidPrivateKeyLen S)
      else .ok mk).isOk
        ↔ pub.length = P ∧ ∀ p, priv = some p → p.length = S)
    ∧ ((pub.length ≠ P ∨ ∃ p, priv = some p ∧ p.length ≠ S) →
        ∃ e, (if pub.length ≠ P then (Except.error (KeyError.invalidPublicKeyLen P) : Except KeyError XYD)
          else if privLenBad priv S then .error (.invalidPrivateKeyLen S)
          else .ok mk) = .error e ∧ e.isInvalidKeyLength = true) := by
  by_cases hp : pub.length = P
  · cases priv with
    | none =>
        simp [hp, privLenBad, Except.isOk, Except.toBool]
    | some p =>
        by_cases hq : p.length = S
        · simp [hp, hq, privLenBad, Except.isOk, Except.toBool]
        · simp only [hp, privLenBad, hq, ne_eq, not_true_eq_false, if_false,
            decide_not, if_true]
          constructor
          · simp [Except.isOk, Except.toBool, hq]
          · intro _
            exact ⟨KeyError.invalidPrivateKeyLen S, by simp [hq], rfl⟩
  · constructor
    · simp [hp, Except.isOk, Except.toBool]
    · intro _
      exact ⟨KeyError.invalidPublicKeyLen P, by simp [hp], rfl⟩

/-- Claim C2. Length invariants: for every tag the raw codec supports, the
structured-object builder `_importXY_D` succeeds exactly when the public buffer
has the table length (32 / 64 / 96 / 132 bytes) and any supplied private scalar
has its table length (32 / 32 / 48 / 66 bytes), and any violation of those
lengths produces one of the two invalid-key-length errors. -/
theorem claim_C2_length_invariants (alg : KeyAlg) (h : alg ≠ .X25519)
    (pub : List Nat) (priv : Option (List Nat)) :
    ((_importXY_D alg pub priv).isOk
      ↔ pub.length = pubLen alg ∧ ∀ p, priv = some p → p.length = privLen alg)
    ∧ ((pub.length ≠ pubLen alg ∨ ∃ p, priv = some p ∧ p.length ≠ privLen alg) →
        ∃ e, _importXY_D alg pub priv = .error e ∧ e.isInvalidKeyLength = true) := by
  cases alg with
  | X25519 => exact absurd rfl h
  | Ed25519 => exact importBranch_spec 32 32 pub priv _
  | P256 => exact importBranch_spec 64 32 pub priv _
  | ES256 => exact importBranch_spec 64 32 pub priv _
  | P384 => exact importBranch_spec 96 48 pub priv _
  | ES384 => exact importBranch_spec 96 48 pub priv _
  | P521 => exact importBranch_spec 132 66 pub priv _
  | ES512 => exact importBranch_spec 132 66 pub priv _

theorem claim_C2_witness :
    ((_importXY_D .Ed25519 (List.replicate 31 0) (some (List.replicate 32 0))).isOk
      ↔ (List.replicate 31 (0 : Nat)).length = pubLen .Ed25519 ∧
        ∀ p, (some (List.replicate 32 (0 : Nat))) = some p → p.length = privLen .Ed25519)
    ∧ (((List.replicate 31 (0 : Nat)).length ≠ pubLen .Ed25519 ∨
        ∃ p, (some (List.replicate 32 (0 : Nat))) = some p ∧ p.length ≠ privLen .Ed25519) →
        ∃ e, _importXY_D .Ed25519 (List.replicate 31 0) (some (List.replicate 32 0))
          = .error e ∧ e.isInvalidKeyLength = true) :=
  claim_C2_length_invariants .Ed25519 (by decide) (List.replicate 31 0)
    (some (List.replicate 32 0))

end Crypto

namespace Crypto

/-! ### Import facade (`src/importKey.ts`) -/

/-- Arguments the import facade hands to the provider's structured import
(`crypto.subtle.importKey('jwk', {kty, crv, x, y, d}, options, extractable,
usages)`). -/
structure SubtleImportCall where
  kty : String
  crv : String
  x : String
  y : Option String
  d : Option String
  algName : String
  namedCurve : Option String
  extractable : Bool
  usages : List String

/-- The `importKey` facade of `src/importKey.ts` on byte inputs (the `raw`
format path): builds the structured object via `_importXY_D`, then dispatches
on the tag to wrap it in `kty`/`crv` and call the provider's structured
import. -/
def importKeyCall (alg : KeyAlg) (extractable : Bool) (publicKey : List Nat)
    (privateKey : Option (List Nat)) : Except KeyError SubtleImportCall := do
  let jwk ← _importXY_D alg publicKey privateKey
  let usages := [if privateKey.isSome then "sign" else "verify"]
  match alg with
  | .Ed25519 =>
      .ok ⟨"OKP", "Ed25519", jwk.x, jwk.y, jwk.d, "Ed25519", none, extractable, usages⟩
  | .P256 | .ES256 =>
      .ok ⟨"EC", "P-256", jwk.x, jwk.y, jwk.d, "ECDSA", some "P-256", extractable, usages⟩
  | .P384 | .ES384 =>
      .ok ⟨"EC", "P-384", jwk.x, jwk.y, jwk.d, "ECDSA", some "P-384", extractable, usages⟩
  | .P521 | .ES512 =>
      .ok ⟨"EC", "P-521", jwk.x, jwk.y, jwk.d, "ECDSA", some "P-521", extractable, usages⟩
  | .X25519 => .error (.algNotSupported .X25519)

/-- The `importKey` facade on `hex` format inputs: decodes the hex strings to
bytes first (an empty or absent private-key string counts as absent, mirroring
the truthiness test of the source). -/
def importKeyHex (alg : KeyAlg) (extractable : Bool) (publicKey : String)
    (privateKey : Option String) : Except KeyError SubtleImportCall :=
  match decodeHex publicKey with
  | none => .error .malformedHex
  | some pub =>
      match privateKey with
      | none => importKeyCall alg extractable pub none
      | some s =>
          if s = "" then importKeyCall alg extractable pub none
          else
            match decodeHex s with
            | none => .error .malformedHex
            | some pr => importKeyCall alg extractable pub (some pr)

/-- Expected `kty` wrapping per tag, as the spec states it. -/
def ktyOf : KeyAlg → String
  | .Ed25519 | .X25519 => "OKP"
  | _ => "EC"

/-- Expected `crv` wrapping per tag, as the spec states it. -/
def crvOf : KeyAlg → String
  | .Ed25519 => "Ed25519"
  | .X25519 => "X25519"
  | .P256 | .ES256 => "P-256"
  | .P384 | .ES384 => "P-384"
  | .P521 | .ES512 => "P-521"

/-- Expected provider algorithm name per tag, as the spec states it. -/
def subtleAlgNameOf : KeyAlg → String
  | .Ed25519 => "Ed25519"
  | .X25519 => "X25519"
  | _ => "ECDSA"

/-- Expected provider named curve per tag, as the spec states it. -/
def namedCurveOf : KeyAlg → Option String
  | .Ed25519 | .X25519 => none
  | .P256 | .ES256 => some "P-256"
  | .P384 | .ES384 => some "P-384"
  | .P521 | .ES512 => some "P-521"

theorem encodeHex_ne_empty (l : List Nat) (h : l ≠ []) : encodeHex l ≠ "" := by
  cases l with
  | nil => exact absurd rfl h
  | cons b rest =>
      intro hc
      have hdata := congrArg String.data hc
      simp [encodeHex] at hdata

theorem importKeyHex_encodeHex (alg : KeyAlg) (ext : Bool) (pub priv : List Nat)
    (hpb : ∀ b ∈ pub, b < 256) (hvb : ∀ b ∈ priv, b < 256) (hne : priv ≠ []) :
    importKeyHex alg ext (encodeHex pub) (some (encodeHex priv))
      = importKeyCall alg ext pub (some priv) := by
  unfold importKeyHex
  rw [decodeHex_encodeHex pub hpb]
  simp only
  rw [if_neg (encodeHex_ne_empty priv hne), decodeHex_encodeHex priv hvb]

/-- Claim C3 counterexample. The import facade does not support X25519: on an
X25519 tag with a table-length raw public buffer it fails with the
unsupported-algorithm error instead of building a structured key object and
handing it to the provider. -/
theorem claim_C3_counterexample :
    importKeyCall .X25519 false (List.replicate 32 0) (some (List.replicate 32 0))
      = .error (.algNotSupported .X25519) := rfl

/-- Claim C3 (amended). Import facade coverage: for every algorithm tag except
X25519 and for both accepted input formats (`raw` bytes, and `hex` strings
that decode to them), `importKey` builds the structured key object with the
correct `kty`/`crv` wrapping (`EC` with the matching curve for P-*/ES* tags,
`OKP` with `Ed25519` for the Ed25519 tag) and hands it to the provider's
structured import; X25519 fails with an unsupported-algorithm error and
`base64url` is not an accepted input format of this facade. -/
theorem claim_C3_import_coverage (alg : KeyAlg) (h : alg ≠ .X25519) (ext : Bool)
    (pub priv : List Nat)
    (hpl : pub.length = pubLen alg) (hvl : priv.length = privLen alg)
    (hpb : ∀ b ∈ pub, b < 256) (hvb : ∀ b ∈ priv, b < 256) :
    ∃ c, importKeyCall alg ext pub (some priv) = .ok c ∧
      c.kty = ktyOf alg ∧ c.crv = crvOf alg ∧ c.algName = subtleAlgNameOf alg ∧
      c.namedCurve = namedCurveOf alg ∧ c.extractable = ext ∧ c.usages = ["sign"] ∧
      importKeyHex alg ext (encodeHex pub) (some (encodeHex priv)) = .ok c := by
  have hne : priv ≠ [] := by
    intro h0
    rw [h0] at hvl
    cases alg <;> simp [privLen] at hvl
  have hhex := importKeyHex_encodeHex alg ext pub priv hpb hvb hne
  cases alg with
  | X25519 => exact absurd rfl h
  | Ed25519 =>
      simp only [pubLen, privLen] at hpl hvl
      have h1 : _importXY_D KeyAlg.Ed25519 pub (some priv)
          = .ok ⟨encodeBase64Url pub, none, some (encodeBase64Url priv)⟩ := by
        simp [_importXY_D, hpl, privLenBad, hvl]
      have hcall : importKeyCall KeyAlg.Ed25519 ext pub (some priv)
          = .ok ⟨"OKP", "Ed25519", encodeBase64Url pub, none,
              some (encodeBase64Url priv), "Ed25519", none, ext, ["sign"]⟩ := by
        unfold importKeyCall
        rw [h1]
        rfl
      exact ⟨_, hcall, rfl, rfl, rfl, rfl, rfl, rfl, by rw [hhex, hcall]⟩
  | P256 =>
      simp only [pubLen, privLen] at hpl hvl
      have h1 : _importXY_D KeyAlg.P256 pub (some priv)
          = .ok ⟨encodeBase64Url (pub.take 32), some (encodeBase64Url (pub.drop 32)),
              some (encodeBase64Url priv)⟩ := by
        simp [_importXY_D, hpl, privLenBad, hvl]
      have hcall : importKeyCall KeyAlg.P256 ext pub (some priv)
          = .ok ⟨"EC", "P-256", encodeBase64Url (pub.take 32),
              some (encodeBase64Url (pub.drop 32)), some (encodeBase64Url priv),
              "ECDSA", some "P-256", ext, ["sign"]⟩ := by
        unfold importKeyCall
        rw [h1]
        rfl
      exact ⟨_, hcall, rfl, rfl, rfl, rfl, rfl, rfl, by rw [hhex, hcall]⟩
  | ES256 =>
      simp only [pubLen, privLen] at hpl hvl
      have h1 : _importXY_D KeyAlg.ES256 pub (some priv)
          = .ok ⟨encodeBase64Url (pub.take 32), some (encodeBase64Url (pub.drop 32)),
              some (encodeBase64Url priv)⟩ := by
        simp [_importXY_D, hpl, privLenBad, hvl]
      have hcall : importKeyCall KeyAlg.ES256 ext pub (some priv)
          = .ok ⟨"EC", "P-256", encodeBase64Url (pub.take 32),
              some (encodeBase64Url (pub.drop 32)), some (encodeBase64Url priv),
              "ECDSA", some "P-256", ext, ["sign"]⟩ := by
        unfold importKeyCall
        rw [h1]
        rfl
      exact ⟨_, hcall, rfl, rfl, rfl, rfl, rfl, rfl, by rw [hhex, hcall]⟩
  | P384 =>
      simp only [pubLen, privLen] at hpl hvl
      have h1 : _importXY_D KeyAlg.P384 pub (some priv)
          = .ok ⟨encodeBase64Url (pub.take 48), some (encodeBase64Url (pub.drop 48)),
              some (encodeBase64Url priv)⟩ := by
        simp [_importXY_D, hpl, privLenBad, hvl]
      have hcall : importKeyCall KeyAlg.P384 ext pub (some priv)
          = .ok ⟨"EC", "P-384", encodeBase64Url (pub.take 48),
              some (encodeBase64Url (pub.drop 48)), some (encodeBase64Url priv),
              "ECDSA", some "P-384", ext, ["sign"]⟩ := by
        unfold importKeyCall
        rw [h1]
        rfl
      exact ⟨_, hcall, rfl, rfl, rfl, rfl, rfl, rfl, by rw [hhex, hcall]⟩
  | ES384 =>
      simp only [pubLen, privLen] at hpl hvl
      have h1 : _importXY_D KeyAlg.ES384 pub (some priv)
          = .ok ⟨encodeBase64Url (pub.take 48), some (encodeBase64Url (pub.drop 48)),
              some (encodeBase64Url priv)⟩ := by
        simp [_importXY_D, hpl, privLenBad, hvl]
      have hcall : importKeyCall KeyAlg.ES384 ext pub (some priv)
          = .ok ⟨"EC", "P-384", encodeBase64Url (pub.take 48),
              some (encodeBase64Url (pub.drop 48)), some (encodeBase64Url priv),
              "ECDSA", some "P-384", ext, ["sign"]⟩ := by
        unfold importKeyCall
        rw [h1]
        rfl
      exact ⟨_, hcall, rfl, rfl, rfl, rfl, rfl, rfl, by rw [hhex, hcall]⟩
  | P521 =>
      simp only [pubLen, privLen] at hpl hvl
      have h1 : _importXY_D KeyAlg.P521 pub (some priv)
          = .ok ⟨encodeBase64Url (pub.take 66), some (encodeBase64Url (pub.drop 66)),
              some (encodeBase64Url priv)⟩ := by
        simp [_importXY_D, hpl, privLenBad, hvl]
      have hcall : importKeyCall KeyAlg.P521 ext pub (some priv)
          = .ok ⟨"EC", "P-521", encodeBase64Url (pub.take 66),
              some (encodeBase64Url (pub.drop 66)), some (encodeBase64Url priv),
              "ECDSA", some "P-521", ext, ["sign"]⟩ := by
        unfold importKeyCall
        rw [h1]
        rfl
      exact ⟨_, hcall, rfl, rfl, rfl, rfl, rfl, rfl, by rw [hhex, hcall]⟩
  | ES512 =>
      simp only [pubLen, privLen] at hpl hvl
      have h1 : _importXY_D KeyAlg.ES512 pub (some priv)
          = .ok ⟨encodeBase64Url (pub.take 66), some (encodeBase64Url (pub.drop 66)),
              some (encodeBase64Url priv)⟩ := by
        simp [_importXY_D, hpl, privLenBad, hvl]
      have hcall : importKeyCall KeyAlg.ES512 ext pub (some priv)
          = .ok ⟨"EC", "P-521", encodeBase64Url (pub.take 66),
              some (encodeBase64Url (pub.drop 66)), some (encodeBase64Url priv),
              "ECDSA", some "P-521", ext, ["sign"]⟩ := by
        unfold importKeyCall
        rw [h1]
        rfl
      exact ⟨_, hcall, rfl, rfl, rfl, rfl, rfl, rfl, by rw [hhex, hcall]⟩

theorem claim_C3_witness :
    ∃ c, importKeyCall .P256 true (List.replicate 64 1) (some (List.replicate 32 2))
        = .ok c ∧
      c.kty = ktyOf .P256 ∧ c.crv = crvOf .P256 ∧ c.algName = subtleAlgNameOf .P256 ∧
      c.namedCurve = namedCurveOf .P256 ∧ c.extractable = true ∧ c.usages = ["sign"] ∧
      importKeyHex .P256 true (encodeHex (List.replicate 64 1))
        (some (encodeHex (List.replicate 32 2))) = .ok c :=
  claim_C3_import_coverage .P256 (by decide) true (List.replicate 64 1)
    (List.replicate 32 2) (by decide) (by decide) (by decide) (by decide)

end Crypto

namespace Crypto

/-! ### JWK inference engine (`jwkAlgorithm`) -/

/-- The JWK-like structured key object: the `JsonWebKey` fields the inference
engine reads.  `none` models an absent (`undefined`) field. -/
structure JsonWebKey where
  kty : Option String
  crv : Option String
  alg : Option String
  x : Option String
  y : Option String
  d : Option String
  key_ops : Option (List String)
  use : Option String
deriving DecidableEq

/-- Model of `String.prototype.startsWith` for ASCII strings. -/
def strStartsWith (s p : String) : Bool := s.data.take p.data.length == p.data

/-- Model of `String.prototype.slice(i)` for ASCII strings. -/
def strSliceFrom (s : String) (i : Nat) : String := String.mk (s.data.drop i)

/-- Model of `String.prototype.slice(i, j)` for ASCII strings. -/
def strSlice (s : String) (i j : Nat) : String := String.mk ((s.data.take j).drop i)

/-- The eight operation names the inference engine recognizes, tested in the
order of the source's if/else chain. -/
def recognizedOp (op : String) : Bool :=
  op == "sign" || op == "verify" || op == "encrypt" || op == "decrypt" ||
  op == "wrapKey" || op == "unwrapKey" || op == "deriveKey" || op == "deriveBits"

/-- The key-usage derivation at the top of `jwkAlgorithm`: the loop over a
present `key_ops` pushes exactly the recognized names in order; otherwise a
`use` of `sig`/`enc` maps to the fixed sets; otherwise the list stays empty
(an empty-string `use` is falsy in the source and also yields the empty
list here). -/
def computeKeyUsage (jwk : JsonWebKey) : List String :=
  match jwk.key_ops with
  | some ops => ops.filter recognizedOp
  | none =>
      match jwk.use with
      | some u =>
          if u = "sig" then ["sign", "verify"]
          else if u = "enc" then ["encrypt", "decrypt", "wrapKey", "unwrapKey"]
          else []
      | none => []

/-- Provider algorithm descriptor: the `options` object `jwkAlgorithm`
returns (`name`, optional `namedCurve`, optional `hash.name`, optional AES
`length`). -/
structure AlgDescriptor where
  name : String
  namedCurve : Option String
  hash : Option String
  length : Option Nat
deriving DecidableEq

/-- The `JwkAlgorithmResult` of the source: inferred usages plus descriptor. -/
structure JwkAlgorithmResult where
  keyUsage : List String
  options : AlgDescriptor
deriving DecidableEq

/-- Errors thrown by `jwkAlgorithm`; one constructor per thrown message. -/
inductive JwkError where
  /-- Source `Missing curve (crv) in EC key` -/
  | missingCurveEC
  /-- Source `Unsupported EC curve: C` -/
  | unsupportedECCurve (crv : String)
  /-- Source `Missing curve (crv) in OKP key` -/
  | missingCurveOKP
  /-- Source `Unsupported OKP curve: C` -/
  | unsupportedOKPCurve (crv : String)
  /-- Source `Unsupported RSA algorithm: A` -/
  | unsupportedRsaAlg (alg : String)
  /-- Source `Cannot determine RSA algorithm without the alg field` -/
  | missingRsaAlg
  /-- Source `Unsupported AES length L` -/
  | unsupportedAesLength (len : String)
  /-- Source `Unsupported AES type T` -/
  | unsupportedAesType (t : String)
  /-- Source `Cannot determine AES algorithm without the alg field` -/
  | missingAesAlg
  /-- Source `Unsupported key type: K` -/
  | unsupportedKeyType (kty : Option String)
deriving DecidableEq

/-- Numeric value of a checked AES length string (`+length` of the source,
reached only after the membership check). -/
def aesLengthVal (s : String) : Nat :=
  if s = "128" then 128 else if s = "192" then 192 else 256

/-- The JWK inference engine `jwkAlgorithm`: derives usages via
`computeKeyUsage`, then branches on `kty` (an absent or empty `crv` is falsy
in the source and hits the missing-curve error). -/
def jwkAlgorithm (jwk : JsonWebKey) : Except JwkError JwkAlgorithmResult :=
  match jwk.kty with
  | some "EC" =>
      match jwk.crv with
      | none => .error .missingCurveEC
      | some c =>
          if c = "" then .error .missingCurveEC
          else if c ∈ (["P-256", "P-384", "P-521"] : List String) then
            .ok ⟨computeKeyUsage jwk, ⟨"ECDSA", some c, none, none⟩⟩
          else .error (.unsupportedECCurve c)
  | some "OKP" =>
      match jwk.crv with
      | none => .error .missingCurveOKP
      | some c =>
          if c = "" then .error .missingCurveOKP
          else if c = "Ed25519" then .ok ⟨computeKeyUsage jwk, ⟨"Ed25519", none, none, none⟩⟩
          else if c = "X25519" then .ok ⟨computeKeyUsage jwk, ⟨"X25519", none, none, none⟩⟩
          else .error (.unsupportedOKPCurve c)
  | some "RSA" =>
      match jwk.alg with
      | none => .error .missingRsaAlg
      | some a =>
          if strStartsWith a "RS" || strStartsWith a "PS" then
            if a ∈ (["RS1", "RS256", "RS384", "RS512"] : List String) then
              .ok ⟨computeKeyUsage jwk, ⟨"RSASSA-PKCS1-v1_5", none,
                some ("SHA-" ++ strSliceFrom a 2), none⟩⟩
            else if a ∈ (["PS256", "PS384", "PS512"] : List String) then
              .ok ⟨computeKeyUsage jwk, ⟨"RSA-PSS", none,
                some ("SHA-" ++ strSliceFrom a 2), none⟩⟩
            else .error (.unsupportedRsaAlg a)
          else .error .missingRsaAlg
  | some "oct" =>
      match jwk.alg with
      | none => .error .missingAesAlg
      | some a =>
          if strStartsWith a "A" then
            if ¬(strSlice a 1 4 ∈ (["256", "192", "128"] : List String)) then
              .error (.unsupportedAesLength (strSlice a 1 4))
            else if ¬(strSliceFrom a 4 ∈ (["GCM", "CBC", "CTR", "KW"] : List String)) then
              .error (.unsupportedAesType (strSliceFrom a 4))
            else .ok ⟨computeKeyUsage jwk, ⟨"AES-" ++ strSliceFrom a 4, none, none,
              some (aesLengthVal (strSlice a 1 4))⟩⟩
          else .error .missingAesAlg
  | k => .error (.unsupportedKeyType k)

/-- Rebuild a structured key object with a different `key_ops` field. -/
def withKeyOps (jwk : JsonWebKey) (ko : Option (List String)) : JsonWebKey :=
  ⟨jwk.kty, jwk.crv, jwk.alg, jwk.x, jwk.y, jwk.d, ko, jwk.use⟩

/-- Rebuild a structured key object with a different `use` field. -/
def withUse (jwk : JsonWebKey) (u : Option String) : JsonWebKey :=
  ⟨jwk.kty, jwk.crv, jwk.alg, jwk.x, jwk.y, jwk.d, jwk.key_ops, u⟩

end Crypto

namespace Crypto

/-- Claim C5 counterexample. The alg value `PS1` matches the claimed pattern
`(RS|PS)(1|256|384|512)` but the inference engine rejects it with the
unsupported-RSA-algorithm error instead of producing an RSA-PSS descriptor. -/
theorem claim_C5_counterexample :
    jwkAlgorithm ⟨some "RSA", none, some "PS1", none, none, none, none, none⟩
      = .error (.unsupportedRsaAlg "PS1") := rfl

/-- Claim C5 (amended). RSA inference: for a structured key object with kty
`RSA`, the engine accepts exactly the alg values RS1, RS256, RS384, RS512
(descriptor RSASSA-PKCS1-v1_5, hash `SHA-` plus the suffix after the two-letter
prefix) and PS256, PS384, PS512 (descriptor RSA-PSS, same hash rule); a missing
alg, or an alg that starts with neither `RS` nor `PS`, fails with the
missing-algorithm-hint error; any other alg starting with `RS` or `PS` —
including `PS1` — fails with the unsupported-algorithm error. -/
theorem claim_C5_rsa_inference (jwk : JsonWebKey) (h : jwk.kty = some "RSA") :
    (∀ a, jwk.alg = some a →
      ((a ∈ (["RS1", "RS256", "RS384", "RS512"] : List String) →
          jwkAlgorithm jwk = .ok ⟨computeKeyUsage jwk,
            ⟨"RSASSA-PKCS1-v1_5", none, some ("SHA-" ++ strSliceFrom a 2), none⟩⟩)
        ∧ (a ∈ (["PS256", "PS384", "PS512"] : List String) →
          jwkAlgorithm jwk = .ok ⟨computeKeyUsage jwk,
            ⟨"RSA-PSS", none, some ("SHA-" ++ strSliceFrom a 2), none⟩⟩)
        ∧ ((strStartsWith a "RS" || strStartsWith a "PS") = false →
          jwkAlgorithm jwk = .error .missingRsaAlg)
        ∧ ((strStartsWith a "RS" || strStartsWith a "PS") = true →
          a ∉ (["RS1", "RS256", "RS384", "RS512", "PS256", "PS384", "PS512"] : List String) →
          jwkAlgorithm jwk = .error (.unsupportedRsaAlg a))))
    ∧ (jwk.alg = none → jwkAlgorithm jwk = .error .missingRsaAlg) := by
  obtain ⟨kty, crv, alg, x, y, d, ko, u⟩ := jwk
  simp only at h
  subst h
  constructor
  · rintro a rfl
    have hred : jwkAlgorithm ⟨some "RSA", crv, some a, x, y, d, ko, u⟩
        = (if strStartsWith a "RS" || strStartsWith a "PS" then
             if a ∈ (["RS1", "RS256", "RS384", "RS512"] : List String) then
               .ok ⟨computeKeyUsage ⟨some "RSA", crv, some a, x, y, d, ko, u⟩,
                 ⟨"RSASSA-PKCS1-v1_5", none, some ("SHA-" ++ strSliceFrom a 2), none⟩⟩
             else if a ∈ (["PS256", "PS384", "PS512"] : List String) then
               .ok ⟨computeKeyUsage ⟨some "RSA", crv, some a, x, y, d, ko, u⟩,
                 ⟨"RSA-PSS", none, some ("SHA-" ++ strSliceFrom a 2), none⟩⟩
             else .error (.unsupportedRsaAlg a)
           else .error .missingRsaAlg) := rfl
    refine ⟨?_, ?_, ?_, ?_⟩
    · intro hmem
      simp only [List.mem_cons, List.not_mem_nil, or_false] at hmem
      rcases hmem with rfl | rfl | rfl | rfl <;> rfl
    · intro hmem
      simp only [List.mem_cons, List.not_mem_nil, or_false] at hmem
      rcases hmem with rfl | rfl | rfl <;> rfl
    · intro hfalse
      rw [hred, if_neg (by simp [hfalse])]
    · intro htrue hnot
      simp only [List.mem_cons, List.not_mem_nil, or_false, not_or] at hnot
      rw [hred, if_pos htrue, if_neg (by simp [hnot.1, hnot.2.1, hnot.2.2.1, hnot.2.2.2.1]),
        if_neg (by simp [hnot.2.2.2.2.1, hnot.2.2.2.2.2.1, hnot.2.2.2.2.2.2])]
  · intro h0
    simp only at h0
    subst h0
    rfl

theorem claim_C5_witness :
    jwkAlgorithm ⟨some "RSA", none, some "RS256", none, none, none, none, none⟩
      = .ok ⟨computeKeyUsage ⟨some "RSA", none, some "RS256", none, none, none, none, none⟩,
        ⟨"RSASSA-PKCS1-v1_5", none, some ("SHA-" ++ strSliceFrom "RS256" 2), none⟩⟩ :=
  ((claim_C5_rsa_inference
    ⟨some "RSA", none, some "RS256", none, none, none, none, none⟩ rfl).1
      "RS256" rfl).1 (by decide)

end Crypto

namespace Crypto

theorem exceptIsOk_map {ε α β : Type} (x : Except ε α) (f : α → β) :
    (x.map f).isOk = x.isOk := by
  cases x <;> rfl

theorem jwkAlgorithm_keyUsage (jwk : JsonWebKey) :
    ∀ r, jwkAlgorithm jwk = .ok r → r.keyUsage = computeKeyUsage jwk := by
  intro r
  unfold jwkAlgorithm
  repeat' split
  all_goals intro hr
  all_goals first
    | (cases hr; rfl)
    | cases hr

theorem jwkAlgorithm_withKeyOps (jwk : JsonWebKey) (ko : Option (List String)) :
    jwkAlgorithm (withKeyOps jwk ko)
      = (jwkAlgorithm jwk).map
          fun r => ⟨computeKeyUsage (withKeyOps jwk ko), r.options⟩ := by
  obtain ⟨kty, crv, alg, x, y, d, ko0, u⟩ := jwk
  unfold jwkAlgorithm withKeyOps
  dsimp only
  repeat' split
  all_goals rfl

/-- Claim C7. Usage derivation: when `key_ops` is present the engine keeps
exactly the recognized operation names (in order, silently dropping every
other entry and never failing because of `key_ops`); otherwise a `use` of
`sig` maps to sign/verify and `enc` to encrypt/decrypt/wrapKey/unwrapKey;
otherwise the usage list is empty — and every successful inference result
carries exactly this derived usage list. -/
theorem claim_C7_usage_derivation (jwk : JsonWebKey) :
    (∀ ops, jwk.key_ops = some ops → computeKeyUsage jwk = ops.filter recognizedOp)
    ∧ (jwk.key_ops = none → jwk.use = some "sig" →
        computeKeyUsage jwk = ["sign", "verify"])
    ∧ (jwk.key_ops = none → jwk.use = some "enc" →
        computeKeyUsage jwk = ["encrypt", "decrypt", "wrapKey", "unwrapKey"])
    ∧ (jwk.key_ops = none → jwk.use ≠ some "sig" → jwk.use ≠ some "enc" →
        computeKeyUsage jwk = [])
    ∧ (∀ r, jwkAlgorithm jwk = .ok r → r.keyUsage = computeKeyUsage jwk)
    ∧ (∀ ops, (jwkAlgorithm (withKeyOps jwk (some ops))).isOk
        = (jwkAlgorithm jwk).isOk) := by
  obtain ⟨kty, crv, alg, x, y, d, ko, u⟩ := jwk
  refine ⟨?_, ?_, ?_, ?_, ?_, ?_⟩
  · rintro ops hko
    simp only at hko
    subst hko
    rfl
  · intro hko hu
    simp only at hko hu
    subst hko
    subst hu
    rfl
  · intro hko hu
    simp only at hko hu
    subst hko
    subst hu
    rfl
  · intro hko hu1 hu2
    simp only at hko
    subst hko
    cases u with
    | none => rfl
    | some s =>
        simp only [ne_eq, Option.some.injEq] at hu1 hu2
        simp [computeKeyUsage, hu1, hu2]
  · exact jwkAlgorithm_keyUsage _
  · intro ops
    rw [jwkAlgorithm_withKeyOps]
    exact exceptIsOk_map _ _

theorem claim_C7_witness :
    computeKeyUsage ⟨some "EC", some "P-256", none, none, none, none,
        some ["sign", "frobnicate", "verify"], some "enc"⟩
      = (["sign", "frobnicate", "verify"] : List String).filter recognizedOp :=
  (claim_C7_usage_derivation ⟨some "EC", some "P-256", none, none, none, none,
    some ["sign", "frobnicate", "verify"], some "enc"⟩).1
      ["sign", "frobnicate", "verify"] rfl

/-- Claim C10. Whenever `key_ops` is present on the input object — even as an
empty list or a list of only unrecognized names — the inference engine never
consults the `use` field: the whole result is invariant under changing `use`,
and in particular `key_ops = []` with `use = sig` yields the empty usage
list. -/
theorem claim_C10_key_ops_shadows_use (jwk : JsonWebKey) (ops : List String)
    (u1 u2 : Option String) :
    jwkAlgorithm (withUse (withKeyOps jwk (some ops)) u1)
      = jwkAlgorithm (withUse (withKeyOps jwk (some ops)) u2)
    ∧ computeKeyUsage (withUse (withKeyOps jwk (some [])) (some "sig")) = [] := by
  constructor
  · obtain ⟨kty, crv, alg, x, y, d, ko, u⟩ := jwk
    unfold withKeyOps withUse jwkAlgorithm
    dsimp only
    repeat' split
    all_goals rfl
  · rfl

end Crypto

namespace Crypto

/-! ### Export facade (`src/exportKey.ts`) -/

/-- Export formats accepted by the facade. -/
inductive ExpFormat where
  | raw
  | hex
  | base64url
  | jwk
deriving DecidableEq

/-- A provider-native key handle as the export facade sees it: algorithm name,
key type, and the structured object the provider's own JWK export returns for
it (the result of `crypto.subtle.exportKey('jwk', key)`). -/
structure KeyHandle where
  algName : String
  type : String
  jwk : JsonWebKey
deriving DecidableEq

/-- The value `exportKey` resolves with. -/
inductive ExportResult where
  | bytes (data : List Nat)
  | text (s : String)
  | jwkObj (j : JsonWebKey)
deriving DecidableEq

/-- Errors thrown by `exportKey`; one constructor per thrown message kind. -/
inductive ExportError where
  /-- failure to base64url-decode a `jwk` field (or a missing field) -/
  | decodeFail
  /-- Source `The key export with the N algorithm is supported only in jwk format` -/
  | unsupportedFormatForAlgorithm (name : String)
  /-- Source `key algorithm not supported: N` -/
  | algNotSupported (name : String)
deriving DecidableEq

/-- Base64url-decode a JWK field the source reads with a non-null assertion
(`jwk.d!` etc.); a missing field or an undecodable string throws. -/
def decodeB64Field (o : Option String) : Except ExportError (List Nat) :=
  match o with
  | none => .error .decodeFail
  | some s =>
      match decodeBase64Url s with
      | none => .error .decodeFail
      | some l => .ok l

/-- The `exportKey` facade of `src/exportKey.ts` on a single key handle:
ECDSA and Ed25519/X25519 keys export as the provider jwk (for `jwk` format) or
as raw/hex/base64url of `d` (private) resp. `x ‖ y` or `x` (public);
RSASSA-PKCS1-v1_5 and the four AES algorithms allow only `jwk`; every other
algorithm name is rejected. -/
def exportKeySingle (format : ExpFormat) (key : KeyHandle) :
    Except ExportError ExportResult :=
  if key.algName = "ECDSA" then
    match format with
    | .jwk => .ok (.jwkObj key.jwk)
    | f => do
        let raw ← if key.type = "private" then decodeB64Field key.jwk.d
          else do
            pure ((← decodeB64Field key.jwk.x) ++ (← decodeB64Field key.jwk.y))
        match f with
        | .hex => pure (.text (encodeHex raw))
        | .base64url => pure (.text (encodeBase64Url raw))
        | _ => pure (.bytes raw)
  else if key.algName = "Ed25519" ∨ key.algName = "X25519" then
    match format with
    | .jwk => .ok (.jwkObj key.jwk)
    | f => do
        let raw ← if key.type = "private" then decodeB64Field key.jwk.d
          else decodeB64Field key.jwk.x
        match f with
        | .hex => pure (.text (encodeHex raw))
        | .base64url => pure (.text (encodeBase64Url raw))
        | _ => pure (.bytes raw)
  else if key.algName = "RSASSA-PKCS1-v1_5" ∨ key.algName = "AES-CBC" ∨
      key.algName = "AES-CTR" ∨ key.algName = "AES-GCM" ∨ key.algName = "AES-KW" then
    if format ≠ .jwk then .error (.unsupportedFormatForAlgorithm key.algName)
    else .ok (.jwkObj key.jwk)
  else .error (.algNotSupported key.algName)

/-- Claim C4 counterexample. An RSA-PSS key handle is not covered by the
RSA/AES branch of `exportKey` at all: even the `jwk` format fails, with the
unsupported-algorithm error rather than a successful structured export. -/
theorem claim_C4_counterexample :
    exportKeySingle .jwk ⟨"RSA-PSS", "private",
        ⟨some "RSA", none, some "PS256", none, none, none, none, none⟩⟩
      = .error (.algNotSupported "RSA-PSS") := rfl

/-- Claim C4 (amended). Export format restriction: for every key handle whose
algorithm is RSASSA-PKCS1-v1_5 or one of AES-CBC/CTR/GCM/KW, `exportKey` with
any format other than `jwk` fails with the unsupported-format-for-algorithm
error while the `jwk` format succeeds and returns the provider's structured
key object; an RSA-PSS handle is outside that branch and fails with the
unsupported-algorithm error for every format. -/
theorem claim_C4_export_format_restriction (key : KeyHandle) (fmt : ExpFormat) :
    (key.algName ∈ (["RSASSA-PKCS1-v1_5", "AES-CBC", "AES-CTR", "AES-GCM",
        "AES-KW"] : List String) →
      (fmt ≠ .jwk →
        exportKeySingle fmt key = .error (.unsupportedFormatForAlgorithm key.algName))
      ∧ exportKeySingle .jwk key = .ok (.jwkObj key.jwk))
    ∧ (key.algName = "RSA-PSS" →
        exportKeySingle fmt key = .error (.algNotSupported "RSA-PSS")) := by
  obtain ⟨algName, type, jwk⟩ := key
  constructor
  · intro hmem
    simp only [List.mem_cons, List.not_mem_nil, or_false] at hmem
    rcases hmem with rfl | rfl | rfl | rfl | rfl <;>
      exact ⟨fun hne => by cases fmt <;> first | exact absurd rfl hne | rfl, rfl⟩
  · intro hpss
    simp only at hpss
    subst hpss
    cases fmt <;> rfl

theorem claim_C4_witness :
    (exportKeySingle .raw ⟨"AES-GCM", "secret",
        ⟨some "oct", none, some "A256GCM", none, none, none, none, none⟩⟩
      = .error (.unsupportedFormatForAlgorithm "AES-GCM"))
    ∧ (exportKeySingle .jwk ⟨"AES-GCM", "secret",
        ⟨some "oct", none, some "A256GCM", none, none, none, none, none⟩⟩
      = .ok (.jwkObj ⟨some "oct", none, some "A256GCM", none, none, none, none, none⟩))
    ∧ (exportKeySingle .hex ⟨"RSA-PSS", "private",
        ⟨some "RSA", none, some "PS256", none, none, none, none, none⟩⟩
      = .error (.algNotSupported "RSA-PSS")) :=
  ⟨((claim_C4_export_format_restriction ⟨"AES-GCM", "secret",
      ⟨some "oct", none, some "A256GCM", none, none, none, none, none⟩⟩ .raw).1
        (by decide)).1 (by decide),
   ((claim_C4_export_format_restriction ⟨"AES-GCM", "secret",
      ⟨some "oct", none, some "A256GCM", none, none, none, none, none⟩⟩ .raw).1
        (by decide)).2,
   (claim_C4_export_format_restriction ⟨"RSA-PSS", "private",
      ⟨some "RSA", none, some "PS256", none, none, none, none, none⟩⟩ .hex).2 rfl⟩

/-! ### Registry defaults and key generation (`src/utils.ts`, `src/keys.ts`) -/

/-- Source `keyAlg` of `src/utils.ts`: provider algorithm options per tag. -/
def keyAlg : KeyAlg → AlgDescriptor
  | .Ed25519 => ⟨"Ed25519", none, none, none⟩
  | .X25519 => ⟨"X25519", none, none, none⟩
  | .P256 | .ES256 => ⟨"ECDSA", some "P-256", none, none⟩
  | .P384 | .ES384 => ⟨"ECDSA", some "P-384", none, none⟩
  | .P521 | .ES512 => ⟨"ECDSA", some "P-521", none, none⟩

/-- Source `keyAlgUsage` of `src/utils.ts`: default usages per tag. -/
def keyAlgUsage (alg : KeyAlg) : List String :=
  if alg ≠ .X25519 then ["sign", "verify"] else ["deriveKey"]

/-- Arguments `generateKeyPair` hands to the provider's `generateKey`. -/
structure GenerateKeyCall where
  options : AlgDescriptor
  extractable : Bool
  usages : List String

/-- Source `generateKeyPair` of `src/keys.ts`: the provider call it makes. -/
def generateKeyPairCall (alg : KeyAlg) (extractable : Bool) : GenerateKeyCall :=
  ⟨keyAlg alg, extractable, keyAlgUsage alg⟩

/-- Claim C8. X25519 default usage: the registry's default key-usage function
returns the derive-only set `[deriveKey]` for the X25519 tag and exactly
`[sign, verify]` for every other tag, so the provider call made when
generating an X25519 pair never carries sign or verify usages. -/
theorem claim_C8_x25519_usage :
    keyAlgUsage .X25519 = ["deriveKey"]
    ∧ (∀ a : KeyAlg, a ≠ .X25519 → keyAlgUsage a = ["sign", "verify"])
    ∧ (∀ e : Bool, "sign" ∉ (generateKeyPairCall .X25519 e).usages
        ∧ "verify" ∉ (generateKeyPairCall .X25519 e).usages) := by
  refine ⟨rfl, ?_, ?_⟩
  · intro a ha
    simp [keyAlgUsage, ha]
  · intro e
    constructor <;> simp [generateKeyPairCall, keyAlgUsage]

theorem claim_C8_witness : keyAlgUsage .Ed25519 = ["sign", "verify"] :=
  claim_C8_x25519_usage.2.1 .Ed25519 (by decide)

end Crypto

namespace Crypto

/-! ### X25519 PKCS8 extractor (`src/keys.ts`) -/

/-- Model of reading `pkcs8[i]` on a `Uint8Array` in the source: an
out-of-range read yields `undefined`, which compares unequal to every byte
value and to every length; the sentinel 256 (never a byte and never equal to
the checked in-range quantities) models that. -/
def byteAt (l : List Nat) (i : Nat) : Nat := l.getD i 256

/-- The registered X25519 object identifier bytes checked by the extractor. -/
def x25519Oid : List Nat := [6, 3, 43, 101, 110]

/-- The OID check of the source: `pkcs8.slice(7, 12)` compared element-wise
against the expected five bytes (`every` is vacuously true past the end of a
short slice, exactly as `List.zip` truncates). -/
def oidOk (p : List Nat) : Bool :=
  (((p.drop 7).take 5).zip x25519Oid).all fun q => q.1 == q.2

/-- Errors thrown by `extractX25519PrivateKeyRaw`; one constructor per thrown
message. -/
inductive Pkcs8Error where
  /-- Source `Invalid format: expected SEQUENCE` -/
  | expectedSequence
  /-- Source `Invalid sequence length` -/
  | invalidSequenceLength
  /-- Source `Invalid version format` -/
  | invalidVersion
  /-- Source `Invalid format: expected SEQUENCE for algorithm identifier` -/
  | expectedAlgSequence
  /-- Source `Invalid algorithm identifier length` -/
  | invalidAlgLength
  /-- Source `Invalid OID for X25519` -/
  | invalidOid
  /-- Source `Invalid format: expected OCTET STRING for private key` -/
  | expectedOctetString
  /-- Source `Invalid private key length` -/
  | invalidPrivateKeyLength
deriving DecidableEq

/-- Source `extractX25519PrivateKeyRaw` of `src/keys.ts`: a rigid walk over fixed
offsets — SEQUENCE tag at 0, length byte at 1, version `02 01 00` at 2..4,
algorithm-identifier SEQUENCE `30 05` at 5..6, the five OID bytes at 7..11,
two skipped parameter bytes at 12..13 (the commented-out check of the source),
OCTET STRING tag at 14, length byte 32 at 15 — returning the 32 bytes starting
at offset 16 (`pkcs8.slice(index, index + 32)`). -/
def extractX25519PrivateKeyRaw (pkcs8 : List Nat) : Except Pkcs8Error (List Nat) :=
  if byteAt pkcs8 0 ≠ 0x30 then .error .expectedSequence
  else if byteAt pkcs8 1 ≠ pkcs8.length - 2 then .error .invalidSequenceLength
  else if ¬(byteAt pkcs8 2 = 2 ∧ byteAt pkcs8 3 = 1 ∧ byteAt pkcs8 4 = 0) then
    .error .invalidVersion
  else if byteAt pkcs8 5 ≠ 0x30 then .error .expectedAlgSequence
  else if byteAt pkcs8 6 ≠ 5 then .error .invalidAlgLength
  else if ¬ oidOk pkcs8 then .error .invalidOid
  else if byteAt pkcs8 14 ≠ 4 then .error .expectedOctetString
  else if byteAt pkcs8 15 ≠ 32 then .error .invalidPrivateKeyLength
  else .ok ((pkcs8.drop 16).take 32)

/-- All checked-offset conditions of the extractor, as one boolean. -/
def pkcs8ChecksOk (p : List Nat) : Bool :=
  byteAt p 0 == 0x30 && byteAt p 1 == p.length - 2 &&
  byteAt p 2 == 2 && byteAt p 3 == 1 && byteAt p 4 == 0 &&
  byteAt p 5 == 0x30 && byteAt p 6 == 5 && oidOk p &&
  byteAt p 14 == 4 && byteAt p 15 == 32

/-- A 49-byte blob that satisfies every checked offset (its length byte is 47)
but carries one extra byte after the 32-byte scalar field. -/
def pkcs8Blob49 : List Nat :=
  [0x30, 47, 2, 1, 0, 0x30, 5, 6, 3, 43, 101, 110, 0, 0, 4, 32]
    ++ List.replicate 32 0 ++ [1]

/-- Claim C6 counterexample. On a 49-byte blob whose checked offsets all carry
the expected values, the extractor succeeds and returns the 32 bytes at
offsets 16..47 — which are not the trailing 32 bytes of the blob, so the
claim's `returns the trailing 32-byte private scalar` fails as stated. -/
theorem claim_C6_counterexample :
    pkcs8ChecksOk pkcs8Blob49 = true
    ∧ extractX25519PrivateKeyRaw pkcs8Blob49 = .ok (List.replicate 32 0)
    ∧ pkcs8Blob49.drop (pkcs8Blob49.length - 32) ≠ List.replicate 32 0 := by
  refine ⟨by decide, rfl, by decide⟩

/-- Claim C6 (amended). X25519 PKCS8 extraction: for every input byte array the
extractor returns the 32 bytes at offsets 16 through 47 (the trailing 32 bytes
of the canonical 48-byte blob) exactly when the blob carries the expected byte
values at each checked offset — SEQUENCE tag 0x30 at 0, length byte equal to
total length minus 2, version bytes 02 01 00, algorithm SEQUENCE 0x30 with
length byte 5, the 5-byte X25519 OID, OCTET STRING tag 0x04 at 14 and length
byte 32 at 15; any deviation at a checked offset fails with the error naming
the failed check. -/
theorem claim_C6_pkcs8_extractor (p : List Nat) :
    extractX25519PrivateKeyRaw p = .ok ((p.drop 16).take 32)
      ↔ pkcs8ChecksOk p = true := by
  constructor
  · intro h
    unfold extractX25519PrivateKeyRaw at h
    unfold pkcs8ChecksOk
    repeat' split at h
    all_goals try cases h
    all_goals simp_all [Bool.and_eq_true, beq_iff_eq, not_ne_iff, not_not]
  · intro h
    unfold pkcs8ChecksOk at h
    simp only [Bool.and_eq_true, beq_iff_eq] at h
    obtain ⟨⟨⟨⟨⟨⟨⟨⟨⟨h0, h1⟩, h2⟩, h3⟩, h4⟩, h5⟩, h6⟩, hoid⟩, h14⟩, h15⟩ := h
    unfold extractX25519PrivateKeyRaw
    rw [if_neg (by simp [h0]), if_neg (by simp [h1]),
      if_neg (by simp [h2, h3, h4]), if_neg (by simp [h5]),
      if_neg (by simp [h6]), if_neg (by simp [hoid]),
      if_neg (by simp [h14]), if_neg (by simp [h15])]

/-- Claim C9. The extractor never inspects the two bytes at offsets 12 and 13
(the DER algorithm-parameters position): two inputs of equal length that agree
everywhere before offset 12 and from offset 14 on produce identical results —
the same error, or byte-identical scalars. -/
theorem claim_C9_params_not_inspected (a b : List Nat)
    (hlen : a.length = b.length)
    (h12 : a.take 12 = b.take 12) (h14 : a.drop 14 = b.drop 14) :
    extractX25519PrivateKeyRaw a = extractX25519PrivateKeyRaw b := by
  have hb : ∀ i, i < 12 → byteAt a i = byteAt b i := by
    intro i hi
    unfold byteAt
    rw [List.getD_eq_getElem?_getD, List.getD_eq_getElem?_getD,
      show a[i]? = (a.take 12)[i]? by rw [List.getElem?_take, if_pos hi],
      show b[i]? = (b.take 12)[i]? by rw [List.getElem?_take, if_pos hi], h12]
  have hd : ∀ i, byteAt a (14 + i) = byteAt b (14 + i) := by
    intro i
    unfold byteAt
    rw [List.getD_eq_getElem?_getD, List.getD_eq_getElem?_getD,
      ← List.getElem?_drop a 14 i, ← List.getElem?_drop b 14 i, h14]
  have hoid : (a.drop 7).take 5 = (b.drop 7).take 5 := by
    have h' := congrArg (List.drop 7) h12
    rw [List.drop_take, List.drop_take] at h'
    simpa using h'
  have hdrop : a.drop 16 = b.drop 16 := by
    rw [show (16 : Nat) = 14 + 2 from rfl, ← List.drop_drop, ← List.drop_drop, h14]
  unfold extractX25519PrivateKeyRaw oidOk
  rw [hb 0 (by omega), hb 1 (by omega), hlen, hb 2 (by omega), hb 3 (by omega),
    hb 4 (by omega), hb 5 (by omega), hb 6 (by omega), hoid,
    show byteAt a 14 = byteAt b 14 from hd 0,
    show byteAt a 15 = byteAt b 15 from hd 1, hdrop]

theorem claim_C9_witness :
    extractX25519PrivateKeyRaw
        ([0x30, 46, 2, 1, 0, 0x30, 5, 6, 3, 43, 101, 110, 0, 0, 4, 32]
          ++ List.replicate 32 5)
      = extractX25519PrivateKeyRaw
        ([0x30, 46, 2, 1, 0, 0x30, 5, 6, 3, 43, 101, 110, 9, 8, 4, 32]
          ++ List.replicate 32 5) :=
  claim_C9_params_not_inspected _ _ (by decide) (by decide) (by decide)

end Crypto
